import Mathlib

set_option maxHeartbeats 1000000

/-!
Formal model of the taskiq `Receiver` (src/taskiq/receiver/receiver.py).

The Python module is shallowly embedded as pure Lean functions:

* external collaborators (the wire formatter, `parse_params`, the
  dependency-resolution contexts, the result backend, middleware hook
  bodies, task bodies) are oracles stored as functions inside the
  `Receiver` structure, returning `Except Exc _` to model Python
  exceptions (`Exception` subclasses, the ones `except Exception` catches);
* in-place mutation of the `TaskiqMessage` (by `parse_params` and by the
  dependency-kwargs injection loop) is modelled by threading the updated
  message through and returning it alongside the result;
* observable side effects (opening/closing the dependency context,
  executing the task body, invoking each middleware hook with its
  arguments, writing to the result backend) are recorded in an event
  trace returned next to the value;
* the wall clock is modelled by two integer readings `t0`, `t1` of
  `time()` taken around the body call, so `execution_time = t1 - t0`;
* the admission-controlled `listen` loop is modelled separately as a
  labelled transition system over the semaphore counter, the in-flight
  task set and the done-callback history.
-/

namespace TaskiqModel

/-- Runtime values carried in task arguments and results; opaque at this
level of the model, represented by integers. -/
abbrev Val := Int

/-- Python exceptions, identified by their rendered message. -/
abbrev Exc := String

/-- Raw broker messages: opaque byte sequences. -/
abbrev RawMessage := List Nat

/-- An `inspect.Signature`, opaque to this model (only consumed by the
external `parse_params` oracle). -/
abbrev Sig := String

/-- Resolved type hints of a task body (`get_type_hints` output), opaque
to this model. -/
abbrev Hints := List (String × String)

/-- Python dict lookup (`d.get(key)`) on an association list keyed by
strings; returns the first binding of the key. -/
def alookup {α : Type} (key : String) : List (String × α) → Option α
  | [] => none
  | kv :: rest => if kv.1 = key then some kv.2 else alookup key rest

/-- The decoded message envelope `TaskiqMessage`: task id, task name,
positional arguments and named (keyword) arguments with unique keys. -/
structure TaskiqMessage where
  task_id : String
  task_name : String
  args : List Val
  kwargs : List (String × Val)
deriving DecidableEq

/-- The `TaskiqResult` assembled by `run_task`: failure flag, the (always
absent here) captured-log slot, the optional return value and the elapsed
time `t1 - t0`. -/
structure TaskiqResult where
  is_err : Bool
  log : Option String
  return_value : Option Val
  execution_time : Int
deriving DecidableEq

/-- A registered task body (`original_func`): whether it is a coroutine
function, and its behaviour as a function of the positional and keyword
arguments. A raised exception is an `Except.error`. -/
structure Target where
  is_coroutine : Bool
  fn : List Val → List (String × Val) → Except Exc Val

/-- A middleware object. A hook is `some f` exactly when the middleware
class overrides that hook (the code detects this by comparing the bound
method against the `TaskiqMiddleware` default); `none` models the inherited
no-op default, which the loops in `callback`/`run_task` skip. -/
structure TaskiqMiddleware where
  pre_execute : Option (TaskiqMessage → Except Exc TaskiqMessage)
  post_execute : Option (TaskiqMessage → TaskiqResult → Except Exc Unit)
  post_save : Option (TaskiqMessage → TaskiqResult → Except Exc Unit)
  on_error : Option (TaskiqMessage → TaskiqResult → Exc → Except Exc Unit)

/-- The dependency-resolution template of a task (`DependencyGraph`).
`resolve_kwargs` models `dep_ctx.resolve_kwargs()` for the per-call
context seeded from the broker context and the current message; it may
itself raise. -/
structure DependencyGraph where
  resolve_kwargs : TaskiqMessage → Except Exc (List (String × Val))

/-- The `Receiver` together with the broker collaborators it consults:
the per-task metadata maps built in `__init__`, the middleware list, the
`parse_params` oracle, the formatter and the result backend. -/
structure Receiver where
  validate_params : Bool
  task_signatures : List (String × Sig)
  task_hints : List (String × Hints)
  dependency_graphs : List (String × DependencyGraph)
  available_tasks : List (String × Target)
  middlewares : List TaskiqMiddleware
  parse_params : Option Sig → Hints → TaskiqMessage → Except Exc TaskiqMessage
  formatter_loads : RawMessage → Except Exc TaskiqMessage
  set_result : String → TaskiqResult → Except Exc Unit
  max_async_tasks : Option Int

/-- Observable events of one `callback`/`run_task` run, in order. -/
inductive Event where
  | depCtxOpen
  | depCtxClose
  | bodyRun
  | runTaskCalled (msg : TaskiqMessage)
  | preExec (idx : Nat) (msg : TaskiqMessage)
  | postExec (idx : Nat) (msg : TaskiqMessage) (res : TaskiqResult)
  | postSave (idx : Nat) (msg : TaskiqMessage) (res : TaskiqResult)
  | onError (idx : Nat) (msg : TaskiqMessage) (res : TaskiqResult) (e : Exc)
  | setResult (task_id : String) (res : TaskiqResult)
deriving DecidableEq

/-- The signature passed to `parse_params`: `None` unless
`validate_params` is set, otherwise `self.task_signatures.get(name)`. -/
def signature_of (r : Receiver) (m : TaskiqMessage) : Option Sig :=
  if r.validate_params then alookup m.task_name r.task_signatures else none

/-- The hints passed to `parse_params`:
`self.task_hints.get(message.task_name) or` the empty dict. -/
def hints_of (r : Receiver) (m : TaskiqMessage) : Hints :=
  (alookup m.task_name r.task_hints).getD []

/-- The module-level helper `_run_sync`: calls the target with the
positional and keyword arguments of the message. -/
def run_sync (target : Target) (message : TaskiqMessage) : Except Exc Val :=
  target.fn message.args message.kwargs

/-- The dispatch in `run_task`: a coroutine function is awaited inline
with `*args, **kwargs`; a synchronous one is offloaded to the executor
via `_run_sync`. Both lanes perform the same call. -/
def bodyCall (target : Target) (message : TaskiqMessage) : Except Exc Val :=
  if target.is_coroutine then target.fn message.args message.kwargs
  else run_sync target message

/-- The dependency-injection loop of `run_task`: for each resolved
`(key, val)` in order, set `message.kwargs[key] = val` only when `key`
is not already present among the keyword arguments of the message. -/
def injectKwargs (kwargs : List (String × Val)) (dep : List (String × Val)) :
    List (String × Val) :=
  dep.foldl (fun kw kv => if (alookup kv.1 kw).isSome then kw else kw ++ [kv]) kwargs

/-- The dependency phase of `run_task`: if the task has a dependency
graph, open a per-call context (event `depCtxOpen`), resolve the kwargs
(an exception here propagates, with the context left open), and inject
them into the message. The boolean records whether a context was opened
(`dep_ctx` not `None`). -/
def depPhase (r : Receiver) (taskName : String) (m : TaskiqMessage) :
    Except Exc (TaskiqMessage × Bool) × List Event :=
  match alookup taskName r.dependency_graphs with
  | none => (.ok (m, false), [])
  | some g =>
    match g.resolve_kwargs m with
    | .error e => (.error e, [Event.depCtxOpen])
    | .ok depkw =>
      (.ok ({ m with kwargs := injectKwargs m.kwargs depkw }, true), [Event.depCtxOpen])

/-- The on-error middleware loop at the end of `run_task`: every
middleware overriding `on_error`, in registration order, is invoked with
the message, the result and the caught exception; an exception raised by
a hook aborts the loop and propagates. `idx` is the registration index of
the head of `mws`. -/
def runOnError (mws : List TaskiqMiddleware) (idx : Nat) (m : TaskiqMessage)
    (res : TaskiqResult) (e : Exc) : Except Exc Unit × List Event :=
  match mws with
  | [] => (.ok (), [])
  | mw :: rest =>
    match mw.on_error with
    | none => runOnError rest (idx + 1) m res e
    | some f =>
      match f m res e with
      | .error e2 => (.error e2, [Event.onError idx m res e])
      | .ok _ =>
        let out := runOnError rest (idx + 1) m res e
        (out.1, Event.onError idx m res e :: out.2)

/-- The events the on-error loop produces when every overriding hook
succeeds: one `onError` event per overriding middleware, in registration
order, each carrying the same message, result and exception. -/
def onErrorEvents (mws : List TaskiqMiddleware) (idx : Nat) (m : TaskiqMessage)
    (res : TaskiqResult) (e : Exc) : List Event :=
  match mws with
  | [] => []
  | mw :: rest =>
    match mw.on_error with
    | none => onErrorEvents rest (idx + 1) m res e
    | some _ => Event.onError idx m res e :: onErrorEvents rest (idx + 1) m res e

/-- The tail of `run_task` after parameter parsing and dependency
injection: time and execute the body catching any exception, close the
dependency context if one was opened, assemble the `TaskiqResult`, and
run the on-error middleware loop when the body raised. `tr` is the trace
accumulated by the dependency phase. -/
def runTaskExec (r : Receiver) (target : Target) (m : TaskiqMessage)
    (t0 t1 : Int) (hasCtx : Bool) (tr : List Event) :
    Except Exc (TaskiqResult × TaskiqMessage) × List Event :=
  let bodyOut := bodyCall target m
  let returned : Option Val := match bodyOut with | .ok v => some v | .error _ => none
  let found_exception : Option Exc :=
    match bodyOut with | .ok _ => none | .error e => some e
  let closeTr : List Event := if hasCtx then [Event.depCtxClose] else []
  let result : TaskiqResult :=
    { is_err := found_exception.isSome, log := none,
      return_value := returned, execution_time := t1 - t0 }
  match found_exception with
  | none => (.ok (result, m), tr ++ [Event.bodyRun] ++ closeTr)
  | some e =>
    match runOnError r.middlewares 0 m result e with
    | (.error e2, tr2) => (.error e2, tr ++ [Event.bodyRun] ++ closeTr ++ tr2)
    | (.ok _, tr2) => (.ok (result, m), tr ++ [Event.bodyRun] ++ closeTr ++ tr2)

/-- `Receiver.run_task`: parse and validate the parameters (an exception
here propagates), resolve and inject dependencies, then execute as in
`runTaskExec`. On success the function returns the assembled result
together with the message as mutated in place. -/
def run_task (r : Receiver) (target : Target) (message : TaskiqMessage)
    (t0 t1 : Int) : Except Exc (TaskiqResult × TaskiqMessage) × List Event :=
  match r.parse_params (signature_of r message) (hints_of r message) message with
  | .error e => (.error e, [])
  | .ok m1 =>
    match depPhase r message.task_name m1 with
    | (.error e, tr) => (.error e, tr)
    | (.ok (m2, hasCtx), tr) => runTaskExec r target m2 t0 t1 hasCtx tr

/-- The pre-execute middleware loop of `callback`: every middleware
overriding `pre_execute`, in registration order, receives the message
returned by the previous one; a hook exception propagates. -/
def runPreExecute (mws : List TaskiqMiddleware) (idx : Nat) (msg : TaskiqMessage) :
    Except Exc TaskiqMessage × List Event :=
  match mws with
  | [] => (.ok msg, [])
  | mw :: rest =>
    match mw.pre_execute with
    | none => runPreExecute rest (idx + 1) msg
    | some f =>
      match f msg with
      | .error e => (.error e, [Event.preExec idx msg])
      | .ok msg2 =>
        let out := runPreExecute rest (idx + 1) msg2
        (out.1, Event.preExec idx msg :: out.2)

/-- The post-execute middleware loop of `callback`: observers receiving
the (mutated) message and the result; a hook exception propagates. -/
def runPostExecute (mws : List TaskiqMiddleware) (idx : Nat) (msg : TaskiqMessage)
    (res : TaskiqResult) : Except Exc Unit × List Event :=
  match mws with
  | [] => (.ok (), [])
  | mw :: rest =>
    match mw.post_execute with
    | none => runPostExecute rest (idx + 1) msg res
    | some f =>
      match f msg res with
      | .error e => (.error e, [Event.postExec idx msg res])
      | .ok _ =>
        let out := runPostExecute rest (idx + 1) msg res
        (out.1, Event.postExec idx msg res :: out.2)

/-- The post-save middleware loop of `callback`, run after a successful
result-backend write; it executes inside the same `try` block as the
write, so an exception raised here is handled by `callback` itself. -/
def runPostSave (mws : List TaskiqMiddleware) (idx : Nat) (msg : TaskiqMessage)
    (res : TaskiqResult) : Except Exc Unit × List Event :=
  match mws with
  | [] => (.ok (), [])
  | mw :: rest =>
    match mw.post_save with
    | none => runPostSave rest (idx + 1) msg res
    | some f =>
      match f msg res with
      | .error e => (.error e, [Event.postSave idx msg res])
      | .ok _ =>
        let out := runPostSave rest (idx + 1) msg res
        (out.1, Event.postSave idx msg res :: out.2)

/-- The exception Python raises for `self.broker.available_tasks[name]`
when `name` is absent (only reachable when a pre-execute middleware
renames the task). -/
def keyErrorExc : Exc := "KeyError"

/-- `Receiver.callback`: decode the raw message (decode failure: warn and
drop), look the task up (unknown task: warn and drop), run the
pre-execute chain, execute via `run_task`, run the post-execute chain,
then try to store the result and run the post-save chain inside one
`try` whose handler logs and re-raises only when `raise_err` is set. -/
def callback (r : Receiver) (message : RawMessage) (raise_err : Bool)
    (t0 t1 : Int) : Except Exc Unit × List Event :=
  match r.formatter_loads message with
  | .error _ => (.ok (), [])
  | .ok taskiq_msg =>
    match alookup taskiq_msg.task_name r.available_tasks with
    | none => (.ok (), [])
    | some _ =>
      match runPreExecute r.middlewares 0 taskiq_msg with
      | (.error e, tr) => (.error e, tr)
      | (.ok msgP, tr) =>
        match alookup msgP.task_name r.available_tasks with
        | none => (.error keyErrorExc, tr)
        | some target =>
          match run_task r target msgP t0 t1 with
          | (.error e, tr2) => (.error e, tr ++ [Event.runTaskCalled msgP] ++ tr2)
          | (.ok (result, msgF), tr2) =>
            match runPostExecute r.middlewares 0 msgF result with
            | (.error e, tr3) =>
              (.error e, tr ++ [Event.runTaskCalled msgP] ++ tr2 ++ tr3)
            | (.ok _, tr3) =>
              let trHead := tr ++ [Event.runTaskCalled msgP] ++ tr2 ++ tr3
              match r.set_result msgF.task_id result with
              | .error e =>
                if raise_err then (.error e, trHead) else (.ok (), trHead)
              | .ok _ =>
                match runPostSave r.middlewares 0 msgF result with
                | (.error e, tr4) =>
                  if raise_err then
                    (.error e, trHead ++ [Event.setResult msgF.task_id result] ++ tr4)
                  else
                    (.ok (), trHead ++ [Event.setResult msgF.task_id result] ++ tr4)
                | (.ok _, tr4) =>
                  (.ok (), trHead ++ [Event.setResult msgF.task_id result] ++ tr4)

/-- State of the `listen` loop: the available-permit count of the semaphore,
the mutable `tasks` set (identified by spawn order), the number of units
spawned so far, and the history of done callbacks that have fired. -/
structure ListenState where
  sem_value : Nat
  tasks : List Nat
  spawned : Nat
  finished : List Nat
deriving DecidableEq

/-- Initial `listen` state for a configured `max_async_tasks = K`: the
semaphore holds `K` permits, no unit is in flight, none has finished. -/
def listenInit (K : Nat) : ListenState :=
  { sem_value := K, tasks := [], spawned := 0, finished := [] }

/-- Transitions of the `listen` loop with a semaphore of capacity `K`.
`spawn` models `await self.sem.acquire()` followed by
`asyncio.create_task` and `tasks.add(task)`: it needs a free permit.
`taskDone` models the done callback `task_cb`, which asyncio fires
exactly once per task on completion, failure or cancellation alike:
`tasks.discard(task)` followed by `self.sem.release()`. -/
inductive ListenStep (K : Nat) : ListenState → ListenState → Prop where
  | spawn (s : ListenState) (h : 0 < s.sem_value) :
      ListenStep K s
        { sem_value := s.sem_value - 1, tasks := s.tasks ++ [s.spawned],
          spawned := s.spawned + 1, finished := s.finished }
  | taskDone (s : ListenState) (i : Nat) (h : i ∈ s.tasks) :
      ListenStep K s
        { sem_value := s.sem_value + 1, tasks := s.tasks.erase i,
          spawned := s.spawned, finished := s.finished ++ [i] }

/-- States the `listen` loop can reach from its initial state. -/
def listenReachable (K : Nat) (s : ListenState) : Prop :=
  Relation.ReflTransGen (ListenStep K) (listenInit K) s

/-- Inductive invariant of the `listen` loop: permits plus in-flight
units always account for the full capacity, in-flight ids are distinct
and were actually spawned, and each done callback has fired at most once
per task and only for tasks no longer in flight. -/
def listenInv (K : Nat) (s : ListenState) : Prop :=
  s.tasks.length + s.sem_value = K ∧
  s.tasks.Nodup ∧
  (∀ i ∈ s.tasks, i < s.spawned) ∧
  (∀ i ∈ s.finished, i < s.spawned) ∧
  s.finished.Nodup ∧
  (∀ i ∈ s.finished, i ∉ s.tasks)

lemma listenInv_init (K : Nat) : listenInv K (listenInit K) := by
  refine ⟨?_, ?_, ?_, ?_, ?_, ?_⟩ <;> simp [listenInit]

lemma listenInv_step {K : Nat} {s s' : ListenState} (hs : listenInv K s)
    (h : ListenStep K s s') : listenInv K s' := by
  obtain ⟨hlen, hnd, hlt, hflt, hfnd, hdisj⟩ := hs
  cases h with
  | spawn hsem =>
    refine ⟨?_, ?_, ?_, ?_, ?_, ?_⟩
    · simp only [List.length_append, List.length_singleton]
      omega
    · dsimp only
      refine List.Nodup.append hnd (List.nodup_singleton _) ?_
      intro a ha hb
      simp only [List.mem_singleton] at hb
      subst hb
      exact absurd (hlt _ ha) (by omega)
    · intro i hi
      dsimp only at hi ⊢
      rcases List.mem_append.mp hi with hi | hi
      · exact Nat.lt_succ_of_lt (hlt i hi)
      · simp only [List.mem_singleton] at hi
        omega
    · intro i hi
      exact Nat.lt_succ_of_lt (hflt i hi)
    · exact hfnd
    · intro i hi
      dsimp only at hi ⊢
      intro hmem
      rcases List.mem_append.mp hmem with h1 | h1
      · exact hdisj i hi h1
      · simp only [List.mem_singleton] at h1
        subst h1
        exact absurd (hflt _ hi) (by omega)
  | taskDone i hi =>
    refine ⟨?_, ?_, ?_, ?_, ?_, ?_⟩
    · dsimp only
      rw [List.length_erase_of_mem hi]
      have : 1 ≤ s.tasks.length := List.length_pos_of_mem hi
      omega
    · exact hnd.erase i
    · intro j hj
      exact hlt j (List.mem_of_mem_erase hj)
    · intro j hj
      dsimp only at hj
      rcases List.mem_append.mp hj with hj | hj
      · exact hflt j hj
      · simp only [List.mem_singleton] at hj
        exact hj ▸ hlt i hi
    · dsimp only
      refine List.Nodup.append hfnd (List.nodup_singleton _) ?_
      intro a ha hb
      simp only [List.mem_singleton] at hb
      subst hb
      exact hdisj a ha hi
    · intro j hj hj2
      dsimp only at hj hj2
      have hj3 := List.mem_of_mem_erase hj2
      rcases List.mem_append.mp hj with hj | hj
      · exact hdisj j hj hj3
      · simp only [List.mem_singleton] at hj
        subst hj
        exact absurd hj2 ((List.Nodup.mem_erase_iff hnd).not.mpr (by simp))

lemma listenInv_reachable {K : Nat} {s : ListenState}
    (h : listenReachable K s) : listenInv K s := by
  induction h with
  | refl => exact listenInv_init K
  | tail _ hstep ih => exact listenInv_step ih hstep

/-! Helper lemmas about the hook loops and the injection fold. -/

lemma runOnError_all_ok (mws : List TaskiqMiddleware) (idx : Nat)
    (m : TaskiqMessage) (res : TaskiqResult) (e : Exc)
    (h : ∀ mw ∈ mws, ∀ f, mw.on_error = some f → f m res e = .ok ()) :
    runOnError mws idx m res e = (.ok (), onErrorEvents mws idx m res e) := by
  induction mws generalizing idx with
  | nil => rfl
  | cons mw rest ih =>
    have hrest : ∀ mw ∈ rest, ∀ f, mw.on_error = some f → f m res e = .ok () :=
      fun mw2 hmw2 => h mw2 (List.mem_cons_of_mem _ hmw2)
    cases hmw : mw.on_error with
    | none => simpa [runOnError, onErrorEvents, hmw] using ih (idx + 1) hrest
    | some f =>
      have hf := h mw (List.mem_cons_self _ _) f hmw
      simp [runOnError, onErrorEvents, hmw, hf, ih (idx + 1) hrest]

lemma runOnError_mem (mws : List TaskiqMiddleware) (idx : Nat)
    (m : TaskiqMessage) (res : TaskiqResult) (e : Exc) :
    ∀ x ∈ (runOnError mws idx m res e).2,
      ∃ i m2 r2 e2, x = Event.onError i m2 r2 e2 := by
  induction mws generalizing idx with
  | nil => intro x hx; simp [runOnError] at hx
  | cons mw rest ih =>
    intro x hx
    cases hmw : mw.on_error with
    | none =>
      rw [runOnError, hmw] at hx
      exact ih (idx + 1) x hx
    | some f =>
      rw [runOnError, hmw] at hx
      dsimp only at hx
      cases hf : f m res e with
      | error e2 =>
        rw [hf] at hx
        simp only [List.mem_singleton] at hx
        exact ⟨idx, m, res, e, hx⟩
      | ok u =>
        rw [hf] at hx
        simp only [List.mem_cons] at hx
        rcases hx with hx | hx
        · exact ⟨idx, m, res, e, hx⟩
        · exact ih (idx + 1) x hx

lemma runOnError_count_close (mws : List TaskiqMiddleware) (idx : Nat)
    (m : TaskiqMessage) (res : TaskiqResult) (e : Exc) :
    ((runOnError mws idx m res e).2).count Event.depCtxClose = 0 := by
  rw [List.count_eq_zero]
  intro hmem
  obtain ⟨i, m2, r2, e2, hx⟩ := runOnError_mem mws idx m res e _ hmem
  exact Event.noConfusion hx

lemma runOnError_count_open (mws : List TaskiqMiddleware) (idx : Nat)
    (m : TaskiqMessage) (res : TaskiqResult) (e : Exc) :
    ((runOnError mws idx m res e).2).count Event.depCtxOpen = 0 := by
  rw [List.count_eq_zero]
  intro hmem
  obtain ⟨i, m2, r2, e2, hx⟩ := runOnError_mem mws idx m res e _ hmem
  exact Event.noConfusion hx

lemma alookup_append_left {α : Type} {key : String} {v : α}
    {l1 : List (String × α)} (l2 : List (String × α))
    (h : alookup key l1 = some v) : alookup key (l1 ++ l2) = some v := by
  induction l1 with
  | nil => simp [alookup] at h
  | cons kv rest ih =>
    rw [alookup] at h
    by_cases hk : kv.1 = key
    · simp only [List.cons_append, alookup, hk, if_pos] at h ⊢
      exact h
    · rw [if_neg hk] at h
      simp only [List.cons_append, alookup, if_neg hk]
      exact ih h

lemma injectKwargs_preserves {key : String} {v : Val}
    (kwargs dep : List (String × Val)) (h : alookup key kwargs = some v) :
    alookup key (injectKwargs kwargs dep) = some v := by
  induction dep generalizing kwargs with
  | nil => simpa [injectKwargs] using h
  | cons kv rest ih =>
    rw [injectKwargs, List.foldl_cons]
    by_cases hk : (alookup kv.1 kwargs).isSome
    · rw [if_pos hk]
      exact ih kwargs h
    · rw [if_neg hk]
      exact ih _ (alookup_append_left _ h)

lemma depPhase_ok_preserves {r : Receiver} {taskName : String}
    {m m2 : TaskiqMessage} {b : Bool} {tr : List Event} {key : String} {v : Val}
    (hdep : depPhase r taskName m = (.ok (m2, b), tr))
    (h : alookup key m.kwargs = some v) : alookup key m2.kwargs = some v := by
  rw [depPhase] at hdep
  cases hg : alookup taskName r.dependency_graphs with
  | none =>
    rw [hg] at hdep
    cases hdep
    exact h
  | some g =>
    rw [hg] at hdep
    dsimp only at hdep
    cases hres : g.resolve_kwargs m with
    | error e => rw [hres] at hdep; cases hdep
    | ok depkw =>
      rw [hres] at hdep
      cases hdep
      exact injectKwargs_preserves m.kwargs depkw h

lemma runTaskExec_ok_msg {r : Receiver} {target : Target} {m m2 : TaskiqMessage}
    {t0 t1 : Int} {hasCtx : Bool} {tr : List Event} {res : TaskiqResult}
    (h : (runTaskExec r target m t0 t1 hasCtx tr).1 = .ok (res, m2)) : m2 = m := by
  rw [runTaskExec] at h
  cases hbody : bodyCall target m with
  | ok v =>
    rw [hbody] at h
    cases h
    rfl
  | error e =>
    rw [hbody] at h
    dsimp only at h
    cases hoe : runOnError r.middlewares 0 m
        { is_err := (some e).isSome, log := none, return_value := none,
          execution_time := t1 - t0 } e with
    | mk st tr2 =>
      rw [hoe] at h
      cases st with
      | error e2 => simp at h
      | ok u =>
        simp only at h
        cases h
        rfl

lemma run_task_eq {r : Receiver} {target : Target} {message m1 m2 : TaskiqMessage}
    {hasCtx : Bool} {trD : List Event} {t0 t1 : Int}
    (hparse : r.parse_params (signature_of r message) (hints_of r message) message
      = .ok m1)
    (hdep : depPhase r message.task_name m1 = (.ok (m2, hasCtx), trD)) :
    run_task r target message t0 t1 = runTaskExec r target m2 t0 t1 hasCtx trD := by
  rw [run_task, hparse]
  dsimp only
  rw [hdep]

/-- C1: a task body that raises is never propagated by `run_task`; the
returned result has the failure flag set and no return value, and every
middleware overriding `on_error` is invoked exactly once, in registration
order, with the injected message, that result and the caught exception
(assuming the hooks themselves do not raise). -/
theorem run_task_body_exception_converted
    (r : Receiver) (target : Target) (message m1 m2 : TaskiqMessage)
    (hasCtx : Bool) (trD : List Event) (t0 t1 : Int) (e : Exc)
    (hparse : r.parse_params (signature_of r message) (hints_of r message) message
      = .ok m1)
    (hdep : depPhase r message.task_name m1 = (.ok (m2, hasCtx), trD))
    (hbody : bodyCall target m2 = .error e)
    (hhooks : ∀ mw ∈ r.middlewares, ∀ f, mw.on_error = some f →
      f m2 { is_err := true, log := none, return_value := none,
             execution_time := t1 - t0 } e = .ok ()) :
    run_task r target message t0 t1 =
      (.ok ({ is_err := true, log := none, return_value := none,
              execution_time := t1 - t0 }, m2),
       trD ++ [Event.bodyRun] ++ (if hasCtx then [Event.depCtxClose] else []) ++
         onErrorEvents r.middlewares 0 m2
           { is_err := true, log := none, return_value := none,
             execution_time := t1 - t0 } e) := by
  rw [run_task_eq hparse hdep, runTaskExec]
  simp only [hbody, Option.isSome]
  rw [runOnError_all_ok _ _ _ _ _ hhooks]

/-- C5: a task body that returns a value yields a result with the failure
flag unset, the return value of the body, and a nonnegative duration (under a
monotone clock). -/
theorem run_task_success
    (r : Receiver) (target : Target) (message m1 m2 : TaskiqMessage)
    (hasCtx : Bool) (trD : List Event) (t0 t1 : Int) (v : Val)
    (hparse : r.parse_params (signature_of r message) (hints_of r message) message
      = .ok m1)
    (hdep : depPhase r message.task_name m1 = (.ok (m2, hasCtx), trD))
    (hbody : bodyCall target m2 = .ok v)
    (ht : t0 ≤ t1) :
    run_task r target message t0 t1 =
      (.ok ({ is_err := false, log := none, return_value := some v,
              execution_time := t1 - t0 }, m2),
       trD ++ [Event.bodyRun] ++ (if hasCtx then [Event.depCtxClose] else [])) ∧
    0 ≤ t1 - t0 := by
  constructor
  · rw [run_task_eq hparse hdep, runTaskExec]
    simp only [hbody, Option.isSome]
  · omega

/-- C2: an explicit caller-supplied keyword argument is never overwritten
by an injected dependency value: whenever `run_task` returns normally,
the message it executed with (and returns) still binds `x` to its
original explicit value. -/
theorem run_task_explicit_kwargs_precedence
    (r : Receiver) (target : Target) (message m1 : TaskiqMessage)
    (x : String) (v : Val) (t0 t1 : Int)
    (hparse : r.parse_params (signature_of r message) (hints_of r message) message
      = .ok m1)
    (hk : alookup x m1.kwargs = some v)
    (res : TaskiqResult) (m2 : TaskiqMessage)
    (hout : (run_task r target message t0 t1).1 = .ok (res, m2)) :
    alookup x m2.kwargs = some v := by
  rw [run_task, hparse] at hout
  dsimp only at hout
  rcases hdp : depPhase r message.task_name m1 with ⟨st, trD⟩
  rw [hdp] at hout
  cases st with
  | error e => simp at hout
  | ok p =>
    rcases p with ⟨m3, hasCtx⟩
    dsimp only at hout
    have hmsg := runTaskExec_ok_msg hout
    subst hmsg
    exact depPhase_ok_preserves hdp hk

/-- C7 (amended): a parameter-validation exception propagates out of
`run_task` unconverted, but it is not the only such path: a
dependency-resolution exception also propagates unconverted (leaving the
opened context behind). -/
theorem run_task_nonconverted_error_paths
    (r : Receiver) (target : Target) (message : TaskiqMessage)
    (t0 t1 : Int) (e : Exc) :
    (r.parse_params (signature_of r message) (hints_of r message) message
        = .error e →
      run_task r target message t0 t1 = (.error e, [])) ∧
    (∀ m1 g,
      r.parse_params (signature_of r message) (hints_of r message) message
        = .ok m1 →
      alookup message.task_name r.dependency_graphs = some g →
      g.resolve_kwargs m1 = .error e →
      run_task r target message t0 t1 = (.error e, [Event.depCtxOpen])) := by
  constructor
  · intro h
    rw [run_task, h]
  · intro m1 g h1 h2 h3
    rw [run_task, h1]
    dsimp only
    rw [depPhase, h2]
    dsimp only
    rw [h3]

/-- C4 (amended): whenever parameter parsing and dependency resolution
both succeed for a task with a dependency graph, the per-call resolution
context is opened and closed exactly once, regardless of whether the task
body returns, raises, or an on-error hook raises; on a
dependency-resolution failure the opened context is never closed. -/
theorem run_task_ctx_close_on_resolution_success
    (r : Receiver) (target : Target) (message m1 : TaskiqMessage)
    (g : DependencyGraph) (depkw : List (String × Val)) (t0 t1 : Int)
    (hparse : r.parse_params (signature_of r message) (hints_of r message) message
      = .ok m1)
    (hg : alookup message.task_name r.dependency_graphs = some g)
    (hres : g.resolve_kwargs m1 = .ok depkw) :
    (run_task r target message t0 t1).2.count Event.depCtxOpen = 1 ∧
    (run_task r target message t0 t1).2.count Event.depCtxClose = 1 := by
  have hdep : depPhase r message.task_name m1 =
      (.ok ({ m1 with kwargs := injectKwargs m1.kwargs depkw }, true),
       [Event.depCtxOpen]) := by
    rw [depPhase, hg]
    dsimp only
    rw [hres]
  rw [run_task_eq hparse hdep, runTaskExec]
  cases hbody : bodyCall target { m1 with kwargs := injectKwargs m1.kwargs depkw } with
  | ok v =>
    simp only [hbody]
    constructor <;> rfl
  | error e =>
    simp only [hbody, Option.isSome]
    rcases hoe : runOnError r.middlewares 0
        { m1 with kwargs := injectKwargs m1.kwargs depkw }
        { is_err := true, log := none, return_value := none,
          execution_time := t1 - t0 } e with ⟨st, tr2⟩
    have hopen := runOnError_count_open r.middlewares 0
        { m1 with kwargs := injectKwargs m1.kwargs depkw }
        { is_err := true, log := none, return_value := none,
          execution_time := t1 - t0 } e
    have hclose := runOnError_count_close r.middlewares 0
        { m1 with kwargs := injectKwargs m1.kwargs depkw }
        { is_err := true, log := none, return_value := none,
          execution_time := t1 - t0 } e
    rw [hoe] at hopen hclose
    cases st with
    | error e2 =>
      constructor <;>
        simp [List.count_append, List.count_cons, hopen, hclose, List.count_nil]
    | ok u =>
      constructor <;>
        simp [List.count_append, List.count_cons, hopen, hclose, List.count_nil]

/-- C6: an undecodable raw message, or a decoded message naming an
unregistered task, makes `callback` return normally with an empty
observable trace: no task body runs, no middleware hook fires, no result
is assembled and no result-store write is attempted (the warnings go to
the logger, which is outside this model). -/
theorem callback_drops_undecodable_and_unknown
    (r : Receiver) (raw : RawMessage) (raise_err : Bool) (t0 t1 : Int)
    (h : (∃ e, r.formatter_loads raw = .error e) ∨
      (∃ m, r.formatter_loads raw = .ok m ∧
        alookup m.task_name r.available_tasks = none)) :
    callback r raw raise_err t0 t1 = (.ok (), []) := by
  rcases h with ⟨e, he⟩ | ⟨m, hm, hl⟩
  · rw [callback, he]
  · rw [callback, hm]
    dsimp only
    rw [hl]

lemma callback_run_task_prefix
    (r : Receiver) (raw : RawMessage) (raise_err : Bool) (t0 t1 : Int)
    (m0 msgP : TaskiqMessage) (tgt tgt2 : Target) (trP : List Event)
    (hfmt : r.formatter_loads raw = .ok m0)
    (hfound : alookup m0.task_name r.available_tasks = some tgt)
    (hpre : runPreExecute r.middlewares 0 m0 = (.ok msgP, trP))
    (hfound2 : alookup msgP.task_name r.available_tasks = some tgt2) :
    ∃ out rest, callback r raw raise_err t0 t1 =
      (out, trP ++ Event.runTaskCalled msgP :: rest) := by
  rw [callback, hfmt]
  dsimp only
  rw [hfound]
  dsimp only
  rw [hpre]
  dsimp only
  rw [hfound2]
  dsimp only
  rcases hrt : run_task r tgt2 msgP t0 t1 with ⟨st, tr2⟩
  cases st with
  | error e => exact ⟨.error e, tr2, by simp⟩
  | ok p =>
    rcases p with ⟨res, msgF⟩
    dsimp only
    rcases hpe : runPostExecute r.middlewares 0 msgF res with ⟨st3, tr3⟩
    cases st3 with
    | error e => exact ⟨.error e, tr2 ++ tr3, by simp⟩
    | ok u =>
      dsimp only
      cases hsr : r.set_result msgF.task_id res with
      | error e =>
        cases raise_err
        · exact ⟨.ok (), tr2 ++ tr3, by simp⟩
        · exact ⟨.error e, tr2 ++ tr3, by simp⟩
      | ok u2 =>
        dsimp only
        rcases hps : runPostSave r.middlewares 0 msgF res with ⟨st4, tr4⟩
        cases st4 with
        | error e =>
          cases raise_err
          · exact ⟨.ok (), tr2 ++ tr3 ++ Event.setResult msgF.task_id res :: tr4,
              by simp⟩
          · exact ⟨.error e, tr2 ++ tr3 ++ Event.setResult msgF.task_id res :: tr4,
              by simp⟩
        | ok u3 =>
          exact ⟨.ok (), tr2 ++ tr3 ++ Event.setResult msgF.task_id res :: tr4,
            by simp⟩

/-- C8: the pre-execute middlewares fire in registration order, each
receiving the message returned by the previous overriding one, a
middleware that does not override pre-execute is skipped, and the final
transformed message is the one handed to `run_task` (shown for a
three-middleware chain with a non-overriding middleware in the middle). -/
theorem callback_pre_execute_order
    (r : Receiver) (raw : RawMessage) (raise_err : Bool) (t0 t1 : Int)
    (m0 m1 m2 : TaskiqMessage) (A C B : TaskiqMiddleware)
    (f g : TaskiqMessage → Except Exc TaskiqMessage) (tgt tgt2 : Target)
    (hmw : r.middlewares = [A, C, B])
    (hA : A.pre_execute = some f) (hC : C.pre_execute = none)
    (hB : B.pre_execute = some g)
    (hf : f m0 = .ok m1) (hgB : g m1 = .ok m2)
    (hfmt : r.formatter_loads raw = .ok m0)
    (hfound : alookup m0.task_name r.available_tasks = some tgt)
    (hfound2 : alookup m2.task_name r.available_tasks = some tgt2) :
    ∃ out rest, callback r raw raise_err t0 t1 =
      (out, Event.preExec 0 m0 :: Event.preExec 2 m1 ::
        Event.runTaskCalled m2 :: rest) := by
  have hpre : runPreExecute r.middlewares 0 m0 =
      (.ok m2, [Event.preExec 0 m0, Event.preExec 2 m1]) := by
    rw [hmw]
    simp [runPreExecute, hA, hC, hB, hf, hgB]
  obtain ⟨out, rest, hcb⟩ :=
    callback_run_task_prefix r raw raise_err t0 t1 m0 m2 tgt tgt2 _
      hfmt hfound hpre hfound2
  exact ⟨out, rest, by simpa using hcb⟩

/-- C10: `run_task` adds the resolved dependency values to the keyword
arguments of the message in place, so the post-execute middleware and the
result-store write observe the message augmented with the injected
kwargs, not the kwargs as originally decoded. -/
theorem callback_observes_injected_kwargs
    (r : Receiver) (raw : RawMessage) (raise_err : Bool) (t0 t1 : Int)
    (m0 m2 : TaskiqMessage) (mw : TaskiqMiddleware)
    (p : TaskiqMessage → TaskiqResult → Except Exc Unit)
    (tgt : Target) (g : DependencyGraph) (depkw : List (String × Val)) (v : Val)
    (hmw : r.middlewares = [mw])
    (hpreN : mw.pre_execute = none)
    (hpost : mw.post_execute = some p)
    (hsaveN : mw.post_save = none)
    (hfmt : r.formatter_loads raw = .ok m0)
    (hfound : alookup m0.task_name r.available_tasks = some tgt)
    (hparse : r.parse_params (signature_of r m0) (hints_of r m0) m0 = .ok m2)
    (hg : alookup m0.task_name r.dependency_graphs = some g)
    (hres : g.resolve_kwargs m2 = .ok depkw)
    (hbody : bodyCall tgt { m2 with kwargs := injectKwargs m2.kwargs depkw }
      = .ok v)
    (hp : p { m2 with kwargs := injectKwargs m2.kwargs depkw }
      { is_err := false, log := none, return_value := some v,
        execution_time := t1 - t0 } = .ok ())
    (hset : r.set_result m2.task_id
      { is_err := false, log := none, return_value := some v,
        execution_time := t1 - t0 } = .ok ()) :
    callback r raw raise_err t0 t1 =
      (.ok (), [Event.runTaskCalled m0, Event.depCtxOpen, Event.bodyRun,
        Event.depCtxClose,
        Event.postExec 0 { m2 with kwargs := injectKwargs m2.kwargs depkw }
          { is_err := false, log := none, return_value := some v,
            execution_time := t1 - t0 },
        Event.setResult m2.task_id
          { is_err := false, log := none, return_value := some v,
            execution_time := t1 - t0 }]) := by
  have hpre : runPreExecute r.middlewares 0 m0 = (.ok m0, []) := by
    rw [hmw]
    simp [runPreExecute, hpreN]
  have hdep : depPhase r m0.task_name m2 =
      (.ok ({ m2 with kwargs := injectKwargs m2.kwargs depkw }, true),
       [Event.depCtxOpen]) := by
    rw [depPhase, hg]
    dsimp only
    rw [hres]
  have hrt : run_task r tgt m0 t0 t1 =
      (.ok ({ is_err := false, log := none, return_value := some v,
              execution_time := t1 - t0 },
            { m2 with kwargs := injectKwargs m2.kwargs depkw }),
       [Event.depCtxOpen, Event.bodyRun, Event.depCtxClose]) := by
    rw [run_task_eq hparse hdep, runTaskExec]
    simp only [hbody, Option.isSome]
    rfl
  have hpe : runPostExecute r.middlewares 0
      { m2 with kwargs := injectKwargs m2.kwargs depkw }
      { is_err := false, log := none, return_value := some v,
        execution_time := t1 - t0 } =
      (.ok (), [Event.postExec 0 { m2 with kwargs := injectKwargs m2.kwargs depkw }
        { is_err := false, log := none, return_value := some v,
          execution_time := t1 - t0 }]) := by
    rw [hmw]
    simp [runPostExecute, hpost, hp]
  have hps : runPostSave r.middlewares 0
      { m2 with kwargs := injectKwargs m2.kwargs depkw }
      { is_err := false, log := none, return_value := some v,
        execution_time := t1 - t0 } = (.ok (), []) := by
    rw [hmw]
    simp [runPostSave, hsaveN]
  rw [callback, hfmt]
  dsimp only
  rw [hfound]
  dsimp only
  rw [hpre]
  dsimp only
  rw [hfound]
  dsimp only
  rw [hrt]
  dsimp only
  rw [hpe]
  dsimp only
  rw [hset]
  dsimp only
  rw [hps]
  simp

/-- C3 (amended): an exception raised by a pre-execute, post-execute or
on-error middleware hook always propagates out of the component that
invoked it, regardless of the raise_err flag; an exception raised by a
post-save hook, however, is caught by the same handler as result-store
failures and propagates out of `callback` only when raise_err is true —
with raise_err false it is suppressed. -/
theorem middleware_hook_error_policy :
    (∀ (r : Receiver) (raw : RawMessage) (raise_err : Bool) (t0 t1 : Int)
        (m0 : TaskiqMessage) (tgt : Target) (e : Exc) (trP : List Event),
      r.formatter_loads raw = .ok m0 →
      alookup m0.task_name r.available_tasks = some tgt →
      runPreExecute r.middlewares 0 m0 = (.error e, trP) →
      callback r raw raise_err t0 t1 = (.error e, trP)) ∧
    (∀ (r : Receiver) (raw : RawMessage) (raise_err : Bool) (t0 t1 : Int)
        (m0 msgP msgF : TaskiqMessage) (tgt tgt2 : Target) (e : Exc)
        (trP trR trE : List Event) (res : TaskiqResult),
      r.formatter_loads raw = .ok m0 →
      alookup m0.task_name r.available_tasks = some tgt →
      runPreExecute r.middlewares 0 m0 = (.ok msgP, trP) →
      alookup msgP.task_name r.available_tasks = some tgt2 →
      run_task r tgt2 msgP t0 t1 = (.ok (res, msgF), trR) →
      runPostExecute r.middlewares 0 msgF res = (.error e, trE) →
      callback r raw raise_err t0 t1 =
        (.error e, trP ++ [Event.runTaskCalled msgP] ++ trR ++ trE)) ∧
    (∀ (r : Receiver) (target : Target) (message m1 m2 : TaskiqMessage)
        (hasCtx : Bool) (trD trO : List Event) (t0 t1 : Int) (eb e : Exc),
      r.parse_params (signature_of r message) (hints_of r message) message
        = .ok m1 →
      depPhase r message.task_name m1 = (.ok (m2, hasCtx), trD) →
      bodyCall target m2 = .error eb →
      runOnError r.middlewares 0 m2
        { is_err := true, log := none, return_value := none,
          execution_time := t1 - t0 } eb = (.error e, trO) →
      run_task r target message t0 t1 =
        (.error e, trD ++ [Event.bodyRun] ++
          (if hasCtx then [Event.depCtxClose] else []) ++ trO)) ∧
    (∀ (r : Receiver) (raw : RawMessage) (t0 t1 : Int)
        (m0 msgP msgF : TaskiqMessage) (tgt tgt2 : Target) (e : Exc)
        (trP trR trE trS : List Event) (res : TaskiqResult),
      r.formatter_loads raw = .ok m0 →
      alookup m0.task_name r.available_tasks = some tgt →
      runPreExecute r.middlewares 0 m0 = (.ok msgP, trP) →
      alookup msgP.task_name r.available_tasks = some tgt2 →
      run_task r tgt2 msgP t0 t1 = (.ok (res, msgF), trR) →
      runPostExecute r.middlewares 0 msgF res = (.ok (), trE) →
      r.set_result msgF.task_id res = .ok () →
      runPostSave r.middlewares 0 msgF res = (.error e, trS) →
      callback r raw true t0 t1 =
        (.error e, trP ++ [Event.runTaskCalled msgP] ++ trR ++ trE ++
          [Event.setResult msgF.task_id res] ++ trS) ∧
      callback r raw false t0 t1 =
        (.ok (), trP ++ [Event.runTaskCalled msgP] ++ trR ++ trE ++
          [Event.setResult msgF.task_id res] ++ trS)) := by
  refine ⟨?_, ?_, ?_, ?_⟩
  · intro r raw raise_err t0 t1 m0 tgt e trP hfmt hfound hpre
    rw [callback, hfmt]
    dsimp only
    rw [hfound]
    dsimp only
    rw [hpre]
  · intro r raw raise_err t0 t1 m0 msgP msgF tgt tgt2 e trP trR trE res
      hfmt hfound hpre hfound2 hrt hpe
    rw [callback, hfmt]
    dsimp only
    rw [hfound]
    dsimp only
    rw [hpre]
    dsimp only
    rw [hfound2]
    dsimp only
    rw [hrt]
    dsimp only
    rw [hpe]
  · intro r target message m1 m2 hasCtx trD trO t0 t1 eb e hparse hdep hbody hoe
    rw [run_task_eq hparse hdep, runTaskExec]
    simp only [hbody, Option.isSome]
    rw [hoe]
  · intro r raw t0 t1 m0 msgP msgF tgt tgt2 e trP trR trE trS res
      hfmt hfound hpre hfound2 hrt hpe hset hps
    constructor <;>
      · rw [callback, hfmt]
        dsimp only
        rw [hfound]
        dsimp only
        rw [hpre]
        dsimp only
        rw [hfound2]
        dsimp only
        rw [hrt]
        dsimp only
        rw [hpe]
        dsimp only
        rw [hset]
        dsimp only
        rw [hps]
        simp

/-- C9: with `max_async_tasks` configured as a positive K, every state
the `listen` loop can reach has at most K units in flight (the permit
count and the in-flight set always account for exactly K), the in-flight
entries are distinct, and the done callback has fired at most once per
unit and removed exactly the finished units from the in-flight set. -/
theorem listen_admission_bound_and_release
    (K : Nat) (hK : 0 < K) (s : ListenState) (h : listenReachable K s) :
    s.tasks.length ≤ K ∧
    s.tasks.length + s.sem_value = K ∧
    s.tasks.Nodup ∧
    s.finished.Nodup ∧
    (∀ i ∈ s.finished, i ∉ s.tasks) := by
  obtain ⟨hlen, hnd, hlt, hflt, hfnd, hdisj⟩ := listenInv_reachable h
  exact ⟨by omega, hlen, hnd, hfnd, hdisj⟩

/-! Concrete instances used to evaluate the model on closed inputs. -/

/-- The `add(a, b)` task of the spec scenarios, an async function. -/
def addTarget : Target :=
  ⟨true, fun args _ =>
    match args with
    | [a, b] => .ok (a + b)
    | _ => .error "TypeError"⟩

/-- Message calling `add` with positional arguments 2 and 3. -/
def msgAdd : TaskiqMessage := ⟨"id-add", "add", [2, 3], []⟩

/-- The `boom()` task of the spec scenarios: always raises. -/
def boomTarget : Target := ⟨true, fun _ _ => .error "boom"⟩

/-- Message calling `boom` with no arguments. -/
def msgBoom : TaskiqMessage := ⟨"id-boom", "boom", [], []⟩

/-- An on-error hook that succeeds. -/
def okOnErrorHook : TaskiqMessage → TaskiqResult → Exc → Except Exc Unit :=
  fun _ _ _ => .ok ()

/-- A middleware overriding only `on_error`, with a well-behaved hook. -/
def onErrMw : TaskiqMiddleware := ⟨none, none, none, some okOnErrorHook⟩

/-- Receiver registering `boom` with one on-error middleware. -/
def recBoom : Receiver :=
  { validate_params := true
    task_signatures := [("boom", "sig-boom")]
    task_hints := []
    dependency_graphs := []
    available_tasks := [("boom", boomTarget)]
    middlewares := [onErrMw]
    parse_params := fun _ _ m => .ok m
    formatter_loads := fun _ => .ok msgBoom
    set_result := fun _ _ => .ok ()
    max_async_tasks := some 2 }

/-- Receiver registering `add` with no middleware and no dependencies. -/
def recAdd : Receiver :=
  { validate_params := true
    task_signatures := [("add", "sig-add")]
    task_hints := [("add", [("a", "int"), ("b", "int")])]
    dependency_graphs := []
    available_tasks := [("add", addTarget)]
    middlewares := []
    parse_params := fun _ _ m => .ok m
    formatter_loads := fun _ => .ok msgAdd
    set_result := fun _ _ => .ok ()
    max_async_tasks := some 4 }

/-- A dependency template resolving the name `x` to 99. -/
def depXGraph : DependencyGraph := ⟨fun _ => .ok [("x", 99)]⟩

/-- A task returning the value bound to its keyword argument `x`. -/
def xTarget : Target :=
  ⟨true, fun _ kw =>
    match alookup "x" kw with
    | some v => .ok v
    | none => .error "missing x"⟩

/-- Message calling `taskx` with the explicit keyword argument `x = 5`. -/
def msgX : TaskiqMessage := ⟨"id-x", "taskx", [], [("x", 5)]⟩

/-- Receiver registering `taskx`, whose dependency template also
resolves `x` (to 99). -/
def recX : Receiver :=
  { validate_params := true
    task_signatures := [("taskx", "sig-x")]
    task_hints := []
    dependency_graphs := [("taskx", depXGraph)]
    available_tasks := [("taskx", xTarget)]
    middlewares := []
    parse_params := fun _ _ m => .ok m
    formatter_loads := fun _ => .ok msgX
    set_result := fun _ _ => .ok ()
    max_async_tasks := some 1 }

/-- A dependency template whose resolution raises. -/
def depBoomGraph : DependencyGraph := ⟨fun _ => .error "dep boom"⟩

/-- Receiver whose `add` task has a dependency template that fails to
resolve. -/
def recDepBoom : Receiver :=
  { validate_params := true
    task_signatures := [("add", "sig-add")]
    task_hints := []
    dependency_graphs := [("add", depBoomGraph)]
    available_tasks := [("add", addTarget)]
    middlewares := []
    parse_params := fun _ _ m => .ok m
    formatter_loads := fun _ => .ok msgAdd
    set_result := fun _ _ => .ok ()
    max_async_tasks := some 1 }

/-- A dependency template resolving the name `y` to 7. -/
def depYGraph : DependencyGraph := ⟨fun _ => .ok [("y", 7)]⟩

/-- Receiver whose `add` task has a dependency template resolving `y`. -/
def recDepOk : Receiver :=
  { validate_params := true
    task_signatures := [("add", "sig-add")]
    task_hints := []
    dependency_graphs := [("add", depYGraph)]
    available_tasks := [("add", addTarget)]
    middlewares := []
    parse_params := fun _ _ m => .ok m
    formatter_loads := fun _ => .ok msgAdd
    set_result := fun _ _ => .ok ()
    max_async_tasks := some 1 }

/-- A second failing dependency template (distinct failure message). -/
def depFailGraph : DependencyGraph := ⟨fun _ => .error "dep fail"⟩

/-- Receiver whose `add` task has a failing dependency template while
its `parse_params` never raises. -/
def recDepFail : Receiver :=
  { validate_params := true
    task_signatures := [("add", "sig-add")]
    task_hints := []
    dependency_graphs := [("add", depFailGraph)]
    available_tasks := [("add", addTarget)]
    middlewares := []
    parse_params := fun _ _ m => .ok m
    formatter_loads := fun _ => .ok msgAdd
    set_result := fun _ _ => .ok ()
    max_async_tasks := some 1 }

/-- Receiver whose `parse_params` always raises a validation error. -/
def recParseBoom : Receiver :=
  { validate_params := true
    task_signatures := [("add", "sig-add")]
    task_hints := []
    dependency_graphs := []
    available_tasks := [("add", addTarget)]
    middlewares := []
    parse_params := fun _ _ _ => .error "bad params"
    formatter_loads := fun _ => .ok msgAdd
    set_result := fun _ _ => .ok ()
    max_async_tasks := some 1 }

/-- A middleware overriding only `post_save`, whose hook raises. -/
def saveBoomMw : TaskiqMiddleware :=
  ⟨none, none, some (fun _ _ => .error "postsave boom"), none⟩

/-- Receiver whose only middleware has a raising post-save hook. -/
def recSaveBoom : Receiver :=
  { validate_params := false
    task_signatures := []
    task_hints := []
    dependency_graphs := []
    available_tasks := [("add", addTarget)]
    middlewares := [saveBoomMw]
    parse_params := fun _ _ m => .ok m
    formatter_loads := fun _ => .ok msgAdd
    set_result := fun _ _ => .ok ()
    max_async_tasks := some 1 }

/-- A middleware overriding only `pre_execute`, whose hook raises. -/
def preBoomMw : TaskiqMiddleware :=
  ⟨some (fun _ => .error "pre boom"), none, none, none⟩

/-- Receiver whose only middleware has a raising pre-execute hook. -/
def recPreBoom : Receiver :=
  { validate_params := false
    task_signatures := []
    task_hints := []
    dependency_graphs := []
    available_tasks := [("add", addTarget)]
    middlewares := [preBoomMw]
    parse_params := fun _ _ m => .ok m
    formatter_loads := fun _ => .ok msgAdd
    set_result := fun _ _ => .ok ()
    max_async_tasks := some 1 }

/-- A middleware overriding only `post_execute`, whose hook raises. -/
def postBoomMw : TaskiqMiddleware :=
  ⟨none, some (fun _ _ => .error "post boom"), none, none⟩

/-- Receiver whose only middleware has a raising post-execute hook. -/
def recPostBoom : Receiver :=
  { validate_params := false
    task_signatures := []
    task_hints := []
    dependency_graphs := []
    available_tasks := [("add", addTarget)]
    middlewares := [postBoomMw]
    parse_params := fun _ _ m => .ok m
    formatter_loads := fun _ => .ok msgAdd
    set_result := fun _ _ => .ok ()
    max_async_tasks := some 1 }

/-- A middleware overriding only `on_error`, whose hook raises. -/
def onErrBoomMw : TaskiqMiddleware :=
  ⟨none, none, none, some (fun _ _ _ => .error "hook boom")⟩

/-- Receiver registering `boom` with a raising on-error middleware. -/
def recOnErrBoom : Receiver :=
  { validate_params := false
    task_signatures := []
    task_hints := []
    dependency_graphs := []
    available_tasks := [("boom", boomTarget)]
    middlewares := [onErrBoomMw]
    parse_params := fun _ _ m => .ok m
    formatter_loads := fun _ => .ok msgBoom
    set_result := fun _ _ => .ok ()
    max_async_tasks := some 1 }

/-- Receiver whose formatter rejects every raw message. -/
def recBadWire : Receiver :=
  { validate_params := true
    task_signatures := []
    task_hints := []
    dependency_graphs := []
    available_tasks := [("add", addTarget)]
    middlewares := []
    parse_params := fun _ _ m => .ok m
    formatter_loads := fun _ => .error "cannot parse message"
    set_result := fun _ _ => .ok ()
    max_async_tasks := some 1 }

/-- A decoded message naming a task that is not registered. -/
def msgMissing : TaskiqMessage := ⟨"id-missing", "missing", [], []⟩

/-- Receiver that decodes every raw message to `msgMissing`, whose task
name is not in the registry. -/
def recMissing : Receiver :=
  { validate_params := true
    task_signatures := []
    task_hints := []
    dependency_graphs := []
    available_tasks := [("add", addTarget)]
    middlewares := []
    parse_params := fun _ _ m => .ok m
    formatter_loads := fun _ => .ok msgMissing
    set_result := fun _ _ => .ok ()
    max_async_tasks := some 1 }

/-- Pre-execute hook appending the keyword binding `a = 1`. -/
def preAFun : TaskiqMessage → Except Exc TaskiqMessage :=
  fun m => .ok { m with kwargs := m.kwargs ++ [("a", 1)] }

/-- Pre-execute hook appending the keyword binding `b = 2`. -/
def preBFun : TaskiqMessage → Except Exc TaskiqMessage :=
  fun m => .ok { m with kwargs := m.kwargs ++ [("b", 2)] }

/-- First middleware of the pre-execute chain (overrides pre-execute). -/
def preAMw : TaskiqMiddleware := ⟨some preAFun, none, none, none⟩

/-- Middle middleware of the chain: overrides no hook at all. -/
def preCMw : TaskiqMiddleware := ⟨none, none, none, none⟩

/-- Last middleware of the pre-execute chain (overrides pre-execute). -/
def preBMw : TaskiqMiddleware := ⟨some preBFun, none, none, none⟩

/-- Receiver with the three-middleware pre-execute chain. -/
def recPre : Receiver :=
  { validate_params := true
    task_signatures := [("add", "sig-add")]
    task_hints := []
    dependency_graphs := []
    available_tasks := [("add", addTarget)]
    middlewares := [preAMw, preCMw, preBMw]
    parse_params := fun _ _ m => .ok m
    formatter_loads := fun _ => .ok msgAdd
    set_result := fun _ _ => .ok ()
    max_async_tasks := some 1 }

/-- `msgAdd` after the first pre-execute hook. -/
def msgAddA : TaskiqMessage := ⟨"id-add", "add", [2, 3], [("a", 1)]⟩

/-- `msgAdd` after both pre-execute hooks. -/
def msgAddAB : TaskiqMessage := ⟨"id-add", "add", [2, 3], [("a", 1), ("b", 2)]⟩

/-- A task returning the value bound to its keyword argument `y`. -/
def yTarget : Target :=
  ⟨true, fun _ kw =>
    match alookup "y" kw with
    | some v => .ok v
    | none => .error "missing y"⟩

/-- Message calling `tasky` with no explicit arguments. -/
def msgY : TaskiqMessage := ⟨"id-y", "tasky", [], []⟩

/-- A post-execute hook that succeeds (a pure observer). -/
def okPostExecHook : TaskiqMessage → TaskiqResult → Except Exc Unit :=
  fun _ _ => .ok ()

/-- A middleware overriding only `post_execute`, with a well-behaved
observer hook. -/
def postObsMw : TaskiqMiddleware := ⟨none, some okPostExecHook, none, none⟩

/-- Receiver registering `tasky`, whose dependency template resolves
`y`, observed by one post-execute middleware. -/
def recY : Receiver :=
  { validate_params := true
    task_signatures := [("tasky", "sig-y")]
    task_hints := []
    dependency_graphs := [("tasky", depYGraph)]
    available_tasks := [("tasky", yTarget)]
    middlewares := [postObsMw]
    parse_params := fun _ _ m => .ok m
    formatter_loads := fun _ => .ok msgY
    set_result := fun _ _ => .ok ()
    max_async_tasks := some 1 }

/-! Counterexamples (closed evaluations refuting claims as stated). -/

/-- C3 counterexample: the only middleware of `recSaveBoom` overrides
`post_save` with a hook that raises, yet with `raise_err = false` the
`callback` run returns normally — the trace shows the hook fired and
raised, and the exception was suppressed, contradicting the claim that a
middleware hook exception always propagates regardless of the flag. -/
theorem callback_swallows_post_save_error :
    callback recSaveBoom [0] false 0 1 =
      (.ok (), [Event.runTaskCalled msgAdd, Event.bodyRun,
        Event.setResult "id-add"
          { is_err := false, log := none, return_value := some 5,
            execution_time := 1 },
        Event.postSave 0 msgAdd
          { is_err := false, log := none, return_value := some 5,
            execution_time := 1 }]) := by
  rfl

/-- C4 counterexample: for `recDepBoom` the dependency context is opened
and then `resolve_kwargs` raises; `run_task` propagates the exception
with the context never closed, contradicting the claim that the close is
invoked on every outcome including dependency-resolution failure. -/
theorem run_task_ctx_leak_on_resolution_failure :
    run_task recDepBoom addTarget msgAdd 0 1 =
      (.error "dep boom", [Event.depCtxOpen]) ∧
    (run_task recDepBoom addTarget msgAdd 0 1).2.count Event.depCtxClose = 0 := by
  constructor
  · rfl
  · rfl

/-- C7 counterexample: for `recDepFail` parameter validation succeeds
(its `parse_params` returns the message unchanged), yet `run_task` still
lets an exception escape — the dependency-resolution failure — so
validation failure is not the only error path that is not converted into
a failed result. -/
theorem run_task_dep_error_escapes :
    run_task recDepFail addTarget msgAdd 0 1 =
      (.error "dep fail", [Event.depCtxOpen]) ∧
    recDepFail.parse_params (signature_of recDepFail msgAdd)
      (hints_of recDepFail msgAdd) msgAdd = .ok msgAdd := by
  constructor
  · rfl
  · rfl

/-! Witnesses instantiating the claim theorems on closed inputs. -/

/-- Witness for C1 at the `boom` scenario of the spec: hypotheses hold
by evaluation and the theorem yields the failed result and the single
on-error invocation. -/
theorem run_task_body_exception_converted_witness :
    recBoom.parse_params (signature_of recBoom msgBoom) (hints_of recBoom msgBoom)
      msgBoom = .ok msgBoom ∧
    depPhase recBoom msgBoom.task_name msgBoom = (.ok (msgBoom, false), []) ∧
    bodyCall boomTarget msgBoom = .error "boom" ∧
    run_task recBoom boomTarget msgBoom 0 1 =
      (.ok ({ is_err := true, log := none, return_value := none,
              execution_time := 1 - 0 }, msgBoom),
       [] ++ [Event.bodyRun] ++ (if false then [Event.depCtxClose] else []) ++
         onErrorEvents recBoom.middlewares 0 msgBoom
           { is_err := true, log := none, return_value := none,
             execution_time := 1 - 0 } "boom") := by
  refine ⟨rfl, rfl, rfl,
    run_task_body_exception_converted recBoom boomTarget msgBoom msgBoom msgBoom
      false [] 0 1 "boom" rfl rfl rfl ?_⟩
  intro mw hmw ff hff
  have hm : mw = onErrMw := by simpa [recBoom] using hmw
  subst hm
  simp only [onErrMw] at hff
  injection hff with hff
  subst hff
  rfl

/-- Witness for C2: with explicit kwarg `x = 5` and a dependency also
resolving `x` (to 99), the executed message still binds `x` to 5 and the
task body observed 5. -/
theorem run_task_explicit_kwargs_precedence_witness :
    recX.parse_params (signature_of recX msgX) (hints_of recX msgX) msgX
      = .ok msgX ∧
    alookup "x" msgX.kwargs = some 5 ∧
    (run_task recX xTarget msgX 0 1).1 =
      .ok ({ is_err := false, log := none, return_value := some 5,
             execution_time := 1 }, msgX) ∧
    alookup "x" msgX.kwargs = some 5 := by
  refine ⟨rfl, rfl, rfl, ?_⟩
  exact run_task_explicit_kwargs_precedence recX xTarget msgX msgX "x" 5 0 1
    rfl rfl
    { is_err := false, log := none, return_value := some 5, execution_time := 1 }
    msgX rfl

/-- Witness for C5 at the `add(2, 3)` scenario of the spec. -/
theorem run_task_success_witness :
    recAdd.parse_params (signature_of recAdd msgAdd) (hints_of recAdd msgAdd)
      msgAdd = .ok msgAdd ∧
    depPhase recAdd msgAdd.task_name msgAdd = (.ok (msgAdd, false), []) ∧
    bodyCall addTarget msgAdd = .ok 5 ∧
    (0 : Int) ≤ 1 ∧
    (run_task recAdd addTarget msgAdd 0 1 =
      (.ok ({ is_err := false, log := none, return_value := some 5,
              execution_time := 1 - 0 }, msgAdd),
       [] ++ [Event.bodyRun] ++ (if false then [Event.depCtxClose] else [])) ∧
     (0 : Int) ≤ 1 - 0) := by
  refine ⟨rfl, rfl, rfl, by norm_num, ?_⟩
  exact run_task_success recAdd addTarget msgAdd msgAdd msgAdd false [] 0 1 5
    rfl rfl rfl (by norm_num)

/-- Witness for C6: an undecodable message and an unknown-task message
each produce a normal return with an empty trace. -/
theorem callback_drops_undecodable_and_unknown_witness :
    recBadWire.formatter_loads [7] = .error "cannot parse message" ∧
    callback recBadWire [7] false 0 1 = (.ok (), []) ∧
    recMissing.formatter_loads [8] = .ok msgMissing ∧
    alookup msgMissing.task_name recMissing.available_tasks = none ∧
    callback recMissing [8] true 0 1 = (.ok (), []) := by
  refine ⟨rfl, ?_, rfl, rfl, ?_⟩
  · exact callback_drops_undecodable_and_unknown recBadWire [7] false 0 1
      (Or.inl ⟨"cannot parse message", rfl⟩)
  · exact callback_drops_undecodable_and_unknown recMissing [8] true 0 1
      (Or.inr ⟨msgMissing, rfl, rfl⟩)

/-- Witness for C8: middlewares [A, C, B] where C overrides nothing; A
fires first on the decoded message, B second on the message A returned,
C is skipped, and `run_task` receives the final transformed message. -/
theorem callback_pre_execute_order_witness :
    recPre.middlewares = [preAMw, preCMw, preBMw] ∧
    preAMw.pre_execute = some preAFun ∧
    preCMw.pre_execute = none ∧
    preBMw.pre_execute = some preBFun ∧
    preAFun msgAdd = .ok msgAddA ∧
    preBFun msgAddA = .ok msgAddAB ∧
    recPre.formatter_loads [1] = .ok msgAdd ∧
    alookup msgAdd.task_name recPre.available_tasks = some addTarget ∧
    alookup msgAddAB.task_name recPre.available_tasks = some addTarget ∧
    (∃ out rest, callback recPre [1] false 0 1 =
      (out, Event.preExec 0 msgAdd :: Event.preExec 2 msgAddA ::
        Event.runTaskCalled msgAddAB :: rest)) := by
  refine ⟨rfl, rfl, rfl, rfl, rfl, rfl, rfl, rfl, rfl, ?_⟩
  exact callback_pre_execute_order recPre [1] false 0 1 msgAdd msgAddA msgAddAB
    preAMw preCMw preBMw preAFun preBFun addTarget addTarget
    rfl rfl rfl rfl rfl rfl rfl rfl rfl

/-- Witness for C10: the post-execute middleware and the result-store
write observe the message with the injected binding `y = 7`, which the
decoded message did not carry. -/
theorem callback_observes_injected_kwargs_witness :
    recY.formatter_loads [2] = .ok msgY ∧
    alookup msgY.task_name recY.available_tasks = some yTarget ∧
    recY.parse_params (signature_of recY msgY) (hints_of recY msgY) msgY
      = .ok msgY ∧
    alookup msgY.task_name recY.dependency_graphs = some depYGraph ∧
    depYGraph.resolve_kwargs msgY = .ok [("y", 7)] ∧
    bodyCall yTarget { msgY with kwargs := injectKwargs msgY.kwargs [("y", 7)] }
      = .ok 7 ∧
    callback recY [2] false 0 1 =
      (.ok (), [Event.runTaskCalled msgY, Event.depCtxOpen, Event.bodyRun,
        Event.depCtxClose,
        Event.postExec 0 { msgY with kwargs := injectKwargs msgY.kwargs [("y", 7)] }
          { is_err := false, log := none, return_value := some 7,
            execution_time := 1 },
        Event.setResult "id-y"
          { is_err := false, log := none, return_value := some 7,
            execution_time := 1 }]) := by
  refine ⟨rfl, rfl, rfl, rfl, rfl, rfl, ?_⟩
  exact callback_observes_injected_kwargs recY [2] false 0 1 msgY msgY postObsMw
    okPostExecHook yTarget depYGraph [("y", 7)] 7
    rfl rfl rfl rfl rfl rfl rfl rfl rfl rfl rfl rfl

/-- Witness for the amended C4: with a resolvable dependency template the
context is opened once and closed once. -/
theorem run_task_ctx_close_on_resolution_success_witness :
    recDepOk.parse_params (signature_of recDepOk msgAdd) (hints_of recDepOk msgAdd)
      msgAdd = .ok msgAdd ∧
    alookup msgAdd.task_name recDepOk.dependency_graphs = some depYGraph ∧
    depYGraph.resolve_kwargs msgAdd = .ok [("y", 7)] ∧
    ((run_task recDepOk addTarget msgAdd 0 1).2.count Event.depCtxOpen = 1 ∧
     (run_task recDepOk addTarget msgAdd 0 1).2.count Event.depCtxClose = 1) :=
  ⟨rfl, rfl, rfl,
    run_task_ctx_close_on_resolution_success recDepOk addTarget msgAdd msgAdd
      depYGraph [("y", 7)] 0 1 rfl rfl rfl⟩

/-- Witness for the amended C7: a validation failure propagates out of
`run_task` unchanged, and so does a dependency-resolution failure. -/
theorem run_task_nonconverted_error_paths_witness :
    recParseBoom.parse_params (signature_of recParseBoom msgAdd)
      (hints_of recParseBoom msgAdd) msgAdd = .error "bad params" ∧
    run_task recParseBoom addTarget msgAdd 0 1 = (.error "bad params", []) ∧
    recDepFail.parse_params (signature_of recDepFail msgAdd)
      (hints_of recDepFail msgAdd) msgAdd = .ok msgAdd ∧
    alookup msgAdd.task_name recDepFail.dependency_graphs = some depFailGraph ∧
    depFailGraph.resolve_kwargs msgAdd = .error "dep fail" ∧
    run_task recDepFail addTarget msgAdd 0 1 =
      (.error "dep fail", [Event.depCtxOpen]) := by
  refine ⟨rfl, ?_, rfl, rfl, rfl, ?_⟩
  · exact (run_task_nonconverted_error_paths recParseBoom addTarget msgAdd 0 1
      "bad params").1 rfl
  · exact (run_task_nonconverted_error_paths recDepFail addTarget msgAdd 0 1
      "dep fail").2 msgAdd depFailGraph rfl rfl rfl

/-- Witness for the amended C3: a raising pre-execute hook aborts the
pipeline, a raising post-execute hook aborts it, a raising on-error hook
escapes `run_task`, and a raising post-save hook propagates only with
`raise_err = true`. -/
theorem middleware_hook_error_policy_witness :
    runPreExecute recPreBoom.middlewares 0 msgAdd =
      (.error "pre boom", [Event.preExec 0 msgAdd]) ∧
    callback recPreBoom [1] false 0 1 =
      (.error "pre boom", [Event.preExec 0 msgAdd]) ∧
    runPostExecute recPostBoom.middlewares 0 msgAdd
      { is_err := false, log := none, return_value := some 5,
        execution_time := 1 } =
      (.error "post boom", [Event.postExec 0 msgAdd
        { is_err := false, log := none, return_value := some 5,
          execution_time := 1 }]) ∧
    callback recPostBoom [1] true 0 1 =
      (.error "post boom", [Event.runTaskCalled msgAdd, Event.bodyRun,
        Event.postExec 0 msgAdd
          { is_err := false, log := none, return_value := some 5,
            execution_time := 1 }]) ∧
    runOnError recOnErrBoom.middlewares 0 msgBoom
      { is_err := true, log := none, return_value := none,
        execution_time := 1 } "boom" =
      (.error "hook boom", [Event.onError 0 msgBoom
        { is_err := true, log := none, return_value := none,
          execution_time := 1 } "boom"]) ∧
    run_task recOnErrBoom boomTarget msgBoom 0 1 =
      (.error "hook boom", [Event.bodyRun, Event.onError 0 msgBoom
        { is_err := true, log := none, return_value := none,
          execution_time := 1 } "boom"]) ∧
    runPostSave recSaveBoom.middlewares 0 msgAdd
      { is_err := false, log := none, return_value := some 5,
        execution_time := 1 } =
      (.error "postsave boom", [Event.postSave 0 msgAdd
        { is_err := false, log := none, return_value := some 5,
          execution_time := 1 }]) ∧
    callback recSaveBoom [0] true 0 1 =
      (.error "postsave boom", [Event.runTaskCalled msgAdd, Event.bodyRun,
        Event.setResult "id-add"
          { is_err := false, log := none, return_value := some 5,
            execution_time := 1 },
        Event.postSave 0 msgAdd
          { is_err := false, log := none, return_value := some 5,
            execution_time := 1 }]) ∧
    callback recSaveBoom [0] false 0 1 =
      (.ok (), [Event.runTaskCalled msgAdd, Event.bodyRun,
        Event.setResult "id-add"
          { is_err := false, log := none, return_value := some 5,
            execution_time := 1 },
        Event.postSave 0 msgAdd
          { is_err := false, log := none, return_value := some 5,
            execution_time := 1 }]) := by
  have h4 := middleware_hook_error_policy.2.2.2 recSaveBoom [0] 0 1 msgAdd msgAdd
    msgAdd addTarget addTarget "postsave boom" [] [Event.bodyRun] []
    [Event.postSave 0 msgAdd
      { is_err := false, log := none, return_value := some 5,
        execution_time := 1 }]
    { is_err := false, log := none, return_value := some 5, execution_time := 1 }
    rfl rfl rfl rfl rfl rfl rfl rfl
  refine ⟨rfl, ?_, rfl, ?_, rfl, ?_, rfl, h4.1, h4.2⟩
  · exact middleware_hook_error_policy.1 recPreBoom [1] false 0 1 msgAdd addTarget
      "pre boom" [Event.preExec 0 msgAdd] rfl rfl rfl
  · exact middleware_hook_error_policy.2.1 recPostBoom [1] true 0 1 msgAdd msgAdd
      msgAdd addTarget addTarget "post boom" [] [Event.bodyRun]
      [Event.postExec 0 msgAdd
        { is_err := false, log := none, return_value := some 5,
          execution_time := 1 }]
      { is_err := false, log := none, return_value := some 5, execution_time := 1 }
      rfl rfl rfl rfl rfl rfl
  · exact middleware_hook_error_policy.2.2.1 recOnErrBoom boomTarget msgBoom
      msgBoom msgBoom false [] [Event.onError 0 msgBoom
        { is_err := true, log := none, return_value := none,
          execution_time := 1 } "boom"] 0 1 "boom" "hook boom"
      rfl rfl rfl rfl

/-- Witness for C9: after one spawn and one completed done callback with
K = 2, the reached state satisfies the bound and bookkeeping facts. -/
theorem listen_admission_bound_and_release_witness :
    0 < 2 ∧
    listenReachable 2 ⟨2, [], 1, [0]⟩ ∧
    ((⟨2, [], 1, [0]⟩ : ListenState).tasks.length ≤ 2 ∧
     (⟨2, [], 1, [0]⟩ : ListenState).tasks.length +
       (⟨2, [], 1, [0]⟩ : ListenState).sem_value = 2 ∧
     (⟨2, [], 1, [0]⟩ : ListenState).tasks.Nodup ∧
     (⟨2, [], 1, [0]⟩ : ListenState).finished.Nodup ∧
     (∀ i ∈ (⟨2, [], 1, [0]⟩ : ListenState).finished,
       i ∉ (⟨2, [], 1, [0]⟩ : ListenState).tasks)) := by
  have h1 : ListenStep 2 (listenInit 2) ⟨1, [0], 1, []⟩ :=
    @ListenStep.spawn 2 (listenInit 2) (by decide)
  have h2 : ListenStep 2 ⟨1, [0], 1, []⟩ ⟨2, [], 1, [0]⟩ :=
    @ListenStep.taskDone 2 ⟨1, [0], 1, []⟩ 0 (by decide)
  have hreach : listenReachable 2 ⟨2, [], 1, [0]⟩ :=
    Relation.ReflTransGen.tail (Relation.ReflTransGen.single h1) h2
  exact ⟨by decide, hreach,
    listen_admission_bound_and_release 2 (by decide) _ hreach⟩

end TaskiqModel
